import Mathlib

/-!
Verification development for the teleCopyPro backend core: the copy-job
orchestrator (`app/services/copy_service.py`) and the Telegram session
manager (`app/services/telegram_service.py`), together with the job
repository (`app/database/repositories/job_repository.py`).

The Python code is shallowly embedded: each loop or method relevant to a
claim is translated into an executable Lean function over explicit state.
Network calls are replaced by outcome scripts / oracles supplied as
arguments, so every definition is computable and theorems can be checked
on concrete inputs.
-/

namespace TeleCopy

/-! ## Send-with-retry machine

Embeds `CopyService._copy_message_with_retry` (copy_service.py lines
109-159).  Each attempt to `client.send_message` is represented by one
`SendOutcome` consumed from a script:
  * `success`      — the send returned normally;
  * `flood n`      — telethon raised `FloodWaitError` with `e.seconds = n`;
  * `transientErr` — any other exception (the generic `except Exception`);
  * `fatalPerm`    — `ChannelPrivateError` / `ChatForwardsRestrictedError`.
-/

inductive SendOutcome
  | success
  | flood (n : Nat)
  | transientErr
  | fatalPerm
deriving DecidableEq, Repr

/-- Observable state threaded through the retry loop: the job row's
`status_message` (modelled as `some n` for the Portuguese
"Aguardando n s (Limitação do Telegram)..." text, `none` when empty),
the sequence of `asyncio.sleep` durations issued so far (seconds), and
how many send attempts were made. -/
structure RetrySt where
  statusMsg : Option Nat := none
  sleeps : List Nat := []
  attempts : Nat := 0
deriving DecidableEq, Repr

inductive RetryOutcome
  | ok          -- returned True
  | exhausted   -- fell out of the while loop, returned False
  | fatal       -- raised CopyServiceError (permission)
  | scriptEnded -- modelling artifact: outcome script ran out mid-loop
deriving DecidableEq, Repr

/-- `max_retries = 3` in `_copy_message_with_retry`. -/
def maxRetries : Nat := 3

/-- The `while retry_count < max_retries` loop of
`_copy_message_with_retry`.  A `FloodWaitError` writes the wait text to
`status_message`, sleeps `wait_time + 1` seconds and retries WITHOUT
touching `retry_count`; a success clears `status_message` (the code
writes `""` when it was set); a generic exception increments
`retry_count` and sleeps `1 * retry_count`; a permission error raises
immediately. -/
def copyWithRetry (script : List SendOutcome) (retryCount : Nat) (st : RetrySt) :
    RetryOutcome × RetrySt :=
  if maxRetries ≤ retryCount then (.exhausted, st)
  else
    match script with
    | [] => (.scriptEnded, st)
    | .success :: _ =>
        (.ok, { st with statusMsg := none, attempts := st.attempts + 1 })
    | .flood n :: rest =>
        copyWithRetry rest retryCount
          { statusMsg := some n, sleeps := st.sleeps ++ [n + 1],
            attempts := st.attempts + 1 }
    | .transientErr :: rest =>
        copyWithRetry rest (retryCount + 1)
          { st with sleeps := st.sleeps ++ [retryCount + 1],
                    attempts := st.attempts + 1 }
    | .fatalPerm :: _ =>
        (.fatal, { st with attempts := st.attempts + 1 })

/-! ## Job status values (`copy_jobs.status` column) -/

inductive JStatus
  | pending
  | running
  | paused
  | stopped
  | completed
  | failed
deriving DecidableEq, Repr

/-- The terminal check used by `stop_real_time_copy`
(`status in ["completed", "stopped", "failed"]`). -/
def JStatus.isTerminal : JStatus → Bool
  | .completed => true
  | .stopped => true
  | .failed => true
  | _ => false

/-! ## Historical copy loop

Embeds the message loop of `CopyService.copy_messages_historical`
(copy_service.py lines 337-413).  The source history is a list of
messages iterated oldest-first (`iter_messages(..., reverse=True)`);
each element is either a telethon `MessageService` or a content message
carrying the outcome script of its send attempts.  `copy_media` is
`True` at every call site, so the `copy_media or not message.media`
guard is always taken. -/

inductive HMsg
  | service (id : Nat)
  | content (id : Nat) (script : List SendOutcome)
deriving DecidableEq, Repr

def HMsg.idOf : HMsg → Nat
  | .service i => i
  | .content i _ => i

/-- Loop accumulator: the local `count` / `failed` counters, the ids of
content messages whose send was attempted, and the retry machine's
observable state. -/
structure HistAcc where
  copied : Nat := 0
  failed : Nat := 0
  attempted : List Nat := []
  sleeps : List Nat := []
  statusMsg : Option Nat := none
deriving DecidableEq, Repr

/-- Result of one (uninterrupted) pass of the historical loop.  `stuck`
marks the modelling artifact of an outcome script running out. -/
structure HistResult where
  copied : Nat
  failed : Nat
  attempted : List Nat
  sleeps : List Nat
  statusMsg : Option Nat
  status : JStatus
  stuck : Bool
deriving DecidableEq, Repr

/-- The `async for message in client.iter_messages(source, reverse=True)`
loop.  The first `offset` iterated messages are skipped by the manual
`skipped_count < offset_count` check (before the `MessageService` test);
then service messages are skipped without counting; each remaining
content message goes through `_copy_message_with_retry`: `True`
increments `count`, `False` increments `failed`, a `CopyServiceError`
aborts the whole job, which the outer handler marks `failed`.  Natural
exhaustion marks the job `completed`.  (External pause/stop polling is
not modelled here; an interrupted run is modelled as a run over the
prefix of the history it processed.) -/
def histRun : Nat → List HMsg → HistAcc → HistResult
  | _, [], acc =>
      ⟨acc.copied, acc.failed, acc.attempted, acc.sleeps, acc.statusMsg,
       .completed, false⟩
  | offset + 1, _ :: rest, acc => histRun offset rest acc
  | 0, .service _ :: rest, acc => histRun 0 rest acc
  | 0, .content id script :: rest, acc =>
      match copyWithRetry script 0 ⟨acc.statusMsg, acc.sleeps, 0⟩ with
      | (.ok, st) =>
          histRun 0 rest
            { acc with copied := acc.copied + 1,
                       attempted := acc.attempted ++ [id],
                       sleeps := st.sleeps, statusMsg := st.statusMsg }
      | (.exhausted, st) =>
          histRun 0 rest
            { acc with failed := acc.failed + 1,
                       attempted := acc.attempted ++ [id],
                       sleeps := st.sleeps, statusMsg := st.statusMsg }
      | (.fatal, st) =>
          ⟨acc.copied, acc.failed, acc.attempted ++ [id], st.sleeps,
           st.statusMsg, .failed, false⟩
      | (.scriptEnded, st) =>
          ⟨acc.copied, acc.failed, acc.attempted ++ [id], st.sleeps,
           st.statusMsg, .failed, true⟩

/-- Ids of the content messages of a history slice. -/
def contentIds : List HMsg → List Nat
  | [] => []
  | .service _ :: rest => contentIds rest
  | .content i _ :: rest => i :: contentIds rest

/-- All message ids of a history slice. -/
def idsOf (l : List HMsg) : List Nat := l.map HMsg.idOf

/-- A slice is service-free when every element is a content message. -/
def serviceFree : List HMsg → Bool
  | [] => true
  | .service _ :: _ => false
  | .content _ _ :: rest => serviceFree rest

/-- A content script "settles" when the retry machine reaches a verdict
(success or bounded-retry exhaustion) rather than aborting or running
out of script. -/
def settles (script : List SendOutcome) : Bool :=
  match (copyWithRetry script 0 ⟨none, [], 0⟩).1 with
  | .ok => true
  | .exhausted => true
  | _ => false

/-- Every content message of the slice settles. -/
def allSettle : List HMsg → Bool
  | [] => true
  | .service _ :: rest => allSettle rest
  | .content _ script :: rest => settles script && allSettle rest

/-! ## Lemmas about the retry machine and the historical loop -/

/-- The verdict of the retry loop depends only on the outcome script and
the starting retry count, not on the observable state threaded through. -/
theorem copyWithRetry_fst_indep (script : List SendOutcome) :
    ∀ rc st st', (copyWithRetry script rc st).1 = (copyWithRetry script rc st').1 := by
  induction script with
  | nil =>
      intro rc st st'
      unfold copyWithRetry
      by_cases h : maxRetries ≤ rc <;> simp [h]
  | cons o rest ih =>
      intro rc st st'
      unfold copyWithRetry
      by_cases h : maxRetries ≤ rc
      · simp [h]
      · cases o <;> simp [h] <;> apply ih

/-- Unfolding step: a successful send clears `status_message` and
returns `True` without sleeping. -/
theorem copyWithRetry_success_step (rest : List SendOutcome) (rc : Nat)
    (st : RetrySt) (h : rc < maxRetries) :
    copyWithRetry (.success :: rest) rc st
      = (.ok, ⟨none, st.sleeps, st.attempts + 1⟩) := by
  have hdef : copyWithRetry (.success :: rest) rc st
      = if maxRetries ≤ rc then (.exhausted, st)
        else (.ok, ⟨none, st.sleeps, st.attempts + 1⟩) := rfl
  rw [hdef, if_neg (by omega)]

/-- Unfolding step: a rate-limit outcome records the wait in
`status_message`, sleeps `n + 1` seconds and retries without spending
the retry budget. -/
theorem copyWithRetry_flood_step (n : Nat) (rest : List SendOutcome) (rc : Nat)
    (st : RetrySt) (h : rc < maxRetries) :
    copyWithRetry (.flood n :: rest) rc st
      = copyWithRetry rest rc ⟨some n, st.sleeps ++ [n + 1], st.attempts + 1⟩ := by
  have hdef : copyWithRetry (.flood n :: rest) rc st
      = if maxRetries ≤ rc then (.exhausted, st)
        else copyWithRetry rest rc ⟨some n, st.sleeps ++ [n + 1], st.attempts + 1⟩ := rfl
  rw [hdef, if_neg (by omega)]

/-- Unfolding step: a transient error spends one retry and sleeps
`1 * retry_count` seconds after the increment. -/
theorem copyWithRetry_transient_step (rest : List SendOutcome) (rc : Nat)
    (st : RetrySt) (h : rc < maxRetries) :
    copyWithRetry (.transientErr :: rest) rc st
      = copyWithRetry rest (rc + 1) ⟨st.statusMsg, st.sleeps ++ [rc + 1], st.attempts + 1⟩ := by
  have hdef : copyWithRetry (.transientErr :: rest) rc st
      = if maxRetries ≤ rc then (.exhausted, st)
        else copyWithRetry rest (rc + 1)
          ⟨st.statusMsg, st.sleeps ++ [rc + 1], st.attempts + 1⟩ := rfl
  rw [hdef, if_neg (by omega)]

/-- Any number of consecutive rate-limit outcomes followed by a success
ends in the `ok` verdict with `status_message` cleared, one `n + 1`
second sleep per cooldown, and no failure verdict. -/
theorem copyWithRetry_flood_replicate (n k : Nat) :
    ∀ rc st, rc < maxRetries →
      copyWithRetry (List.replicate k (.flood n) ++ [.success]) rc st
        = (.ok, ⟨none, st.sleeps ++ List.replicate k (n + 1), st.attempts + k + 1⟩) := by
  induction k with
  | zero =>
      intro rc st h
      simp only [List.replicate, List.nil_append]
      rw [copyWithRetry_success_step [] rc st h]
      simp
  | succ k ih =>
      intro rc st h
      rw [List.replicate_succ, List.cons_append,
        copyWithRetry_flood_step n _ rc st h,
        ih rc ⟨some n, st.sleeps ++ [n + 1], st.attempts + 1⟩ h]
      simp only [Prod.mk.injEq, RetrySt.mk.injEq, List.replicate_succ, List.append_assoc,
        List.singleton_append, true_and]
      omega

/-- Three consecutive transient errors exhaust the retry budget: exactly
`maxRetries` attempts are made, with linearly increasing sleeps of 1, 2
and 3 seconds, and the verdict is `exhausted` (the caller counts one
per-message failure). -/
theorem copyWithRetry_transient_exhausts (m : Option Nat) (s : List Nat) (a : Nat) :
    copyWithRetry (List.replicate maxRetries .transientErr) 0 ⟨m, s, a⟩
      = (.exhausted, ⟨m, s ++ [1, 2, 3], a + 3⟩) := by
  show copyWithRetry [.transientErr, .transientErr, .transientErr] 0 ⟨m, s, a⟩ = _
  rw [copyWithRetry_transient_step _ 0 _ (by decide),
    copyWithRetry_transient_step _ 1 _ (by decide),
    copyWithRetry_transient_step _ 2 _ (by decide)]
  show (RetryOutcome.exhausted, _) = _
  simp [List.append_assoc]

/-- Skipping: the historical loop with resume offset `off` behaves
exactly like the loop started at the history with its first `off`
messages removed. -/
theorem histRun_skip (msgs : List HMsg) :
    ∀ off acc, histRun off msgs acc = histRun 0 (msgs.drop off) acc := by
  induction msgs with
  | nil => intro off acc; cases off <;> rfl
  | cons m rest ih =>
      intro off acc
      cases off with
      | zero => rfl
      | succ off => rw [List.drop_succ_cons, ← ih off acc]; rfl

theorem serviceFree_contentIds (l : List HMsg) :
    serviceFree l = true → contentIds l = idsOf l := by
  induction l with
  | nil => intro _; rfl
  | cons m rest ih =>
      cases m with
      | service i => intro h; exact absurd h (by simp [serviceFree])
      | content i script =>
          intro h
          simp only [serviceFree] at h
          simp [contentIds, idsOf, HMsg.idOf, ih h]

theorem contentIds_subset_idsOf (l : List HMsg) :
    ∀ i, i ∈ contentIds l → i ∈ idsOf l := by
  induction l with
  | nil => intro i h; exact absurd h (by simp [contentIds])
  | cons m rest ih =>
      intro i h
      cases m with
      | service j =>
          simp only [contentIds] at h
          simp [idsOf, HMsg.idOf]
          exact Or.inr (by simpa [idsOf] using ih i h)
      | content j script =>
          simp only [contentIds, List.mem_cons] at h
          simp [idsOf, HMsg.idOf]
          rcases h with h | h
          · exact Or.inl h
          · exact Or.inr (by simpa [idsOf] using ih i h)

theorem allSettle_append (a b : List HMsg) :
    allSettle (a ++ b) = (allSettle a && allSettle b) := by
  induction a with
  | nil => simp [allSettle]
  | cons m rest ih =>
      cases m with
      | service i => simpa [allSettle] using ih
      | content i script => simp [allSettle, ih, Bool.and_assoc]

/-- On a history whose content messages all settle, an uninterrupted run
finishes `completed`, attempts exactly the content messages in order,
and counts each exactly once (`copied + failed` grows by the number of
content messages). -/
theorem histRun_settles (msgs : List HMsg) :
    allSettle msgs = true → ∀ acc,
      (histRun 0 msgs acc).copied + (histRun 0 msgs acc).failed
          = acc.copied + acc.failed + (contentIds msgs).length
      ∧ (histRun 0 msgs acc).attempted = acc.attempted ++ contentIds msgs
      ∧ (histRun 0 msgs acc).status = .completed := by
  induction msgs with
  | nil => intro _ acc; simp [histRun, contentIds]
  | cons m rest ih =>
      intro h acc
      cases m with
      | service i =>
          simp only [allSettle] at h
          simpa [histRun, contentIds] using ih h acc
      | content i script =>
          simp only [allSettle, Bool.and_eq_true] at h
          have hset := h.1
          have hverdict :
              (copyWithRetry script 0 ⟨acc.statusMsg, acc.sleeps, 0⟩).1
                = (copyWithRetry script 0 ⟨none, [], 0⟩).1 :=
            copyWithRetry_fst_indep script 0 _ _
          unfold settles at hset
          simp only [histRun]
          rcases hres : copyWithRetry script 0 ⟨acc.statusMsg, acc.sleeps, 0⟩ with ⟨verdict, st⟩
          rw [hres] at hverdict
          cases verdict with
          | ok =>
              have := ih h.2
                { acc with copied := acc.copied + 1,
                           attempted := acc.attempted ++ [i],
                           sleeps := st.sleeps, statusMsg := st.statusMsg }
              simp only [contentIds, List.length_cons]
              refine ⟨by rw [this.1]; simp; omega, by rw [this.2.1]; simp, this.2.2⟩
          | exhausted =>
              have := ih h.2
                { acc with failed := acc.failed + 1,
                           attempted := acc.attempted ++ [i],
                           sleeps := st.sleeps, statusMsg := st.statusMsg }
              simp only [contentIds, List.length_cons]
              refine ⟨by rw [this.1]; simp; omega, by rw [this.2.1]; simp, this.2.2⟩
          | fatal => simp [← hverdict] at hset
          | scriptEnded => simp [← hverdict] at hset

/-- Definitional unfolding of the historical loop at a content message. -/
theorem histRun_content_step (id : Nat) (script : List SendOutcome)
    (rest : List HMsg) (acc : HistAcc) :
    histRun 0 (.content id script :: rest) acc
      = match copyWithRetry script 0 ⟨acc.statusMsg, acc.sleeps, 0⟩ with
        | (.ok, st) =>
            histRun 0 rest
              { acc with copied := acc.copied + 1,
                         attempted := acc.attempted ++ [id],
                         sleeps := st.sleeps, statusMsg := st.statusMsg }
        | (.exhausted, st) =>
            histRun 0 rest
              { acc with failed := acc.failed + 1,
                         attempted := acc.attempted ++ [id],
                         sleeps := st.sleeps, statusMsg := st.statusMsg }
        | (.fatal, st) =>
            ⟨acc.copied, acc.failed, acc.attempted ++ [id], st.sleeps,
             st.statusMsg, .failed, false⟩
        | (.scriptEnded, st) =>
            ⟨acc.copied, acc.failed, acc.attempted ++ [id], st.sleeps,
             st.statusMsg, .failed, true⟩ := rfl

/-- Unfolding step: a permission error raises `CopyServiceError` on the
very attempt that observed it, with no further retries. -/
theorem copyWithRetry_fatal_step (rest : List SendOutcome) (rc : Nat)
    (st : RetrySt) (h : rc < maxRetries) :
    copyWithRetry (.fatalPerm :: rest) rc st
      = (.fatal, ⟨st.statusMsg, st.sleeps, st.attempts + 1⟩) := by
  have hdef : copyWithRetry (.fatalPerm :: rest) rc st
      = if maxRetries ≤ rc then (.exhausted, st)
        else (.fatal, ⟨st.statusMsg, st.sleeps, st.attempts + 1⟩) := rfl
  rw [hdef, if_neg (by omega)]

/-! ## Claim C1 — resume idempotence of the historical loop -/

/-- First run of a historical job: the loop processed the first `k`
messages of the source history (an interrupted run stops after a prefix;
`k = msgs.length` is an uninterrupted run), starting from a fresh row. -/
def histFirstRun (msgs : List HMsg) (k : Nat) : HistResult :=
  histRun 0 (List.take k msgs) {}

/-- Re-run of the same job: `copy_messages_historical` reads
`copiedCount` and `failedCount` from the persisted row and skips
`copiedCount + failedCount` leading messages. -/
def histRerun (msgs : List HMsg) (k : Nat) : HistResult :=
  histRun ((histFirstRun msgs k).copied + (histFirstRun msgs k).failed) msgs
    { copied := (histFirstRun msgs k).copied,
      failed := (histFirstRun msgs k).failed }

/-- Claim C1, counterexample: with the history
`[service 100, content 1]` a full first run counts exactly one message
(`copiedCount = 1, failedCount = 0`), yet the re-run — which skips
`c + f = 1` leading message, namely the service message — sends content
message 1 again even though it was already counted.  The claim's
"never re-sends a message that was already counted" is false, because
service messages consume an iteration slot without being counted. -/
theorem claim_C1_counterexample :
    (histFirstRun [.service 100, .content 1 [.success]] 2).copied = 1
    ∧ (histFirstRun [.service 100, .content 1 [.success]] 2).failed = 0
    ∧ (histFirstRun [.service 100, .content 1 [.success]] 2).attempted = [1]
    ∧ (histRerun [.service 100, .content 1 [.success]] 2).attempted = [1] := by
  decide

/-- Claim C1 (amended): re-running the historical loop skips exactly
`copiedCount + failedCount` leading messages; provided the part of the
history processed by the earlier run contains no service messages, the
re-run attempts exactly the unprocessed suffix and never re-sends a
message already counted.  (The unamended claim fails when the processed
prefix contains a service message, see the counterexample.) -/
theorem claim_C1_amended (msgs : List HMsg) (k : Nat)
    (hset : allSettle msgs = true)
    (hsf : serviceFree (List.take k msgs) = true)
    (hk : k ≤ msgs.length)
    (hnd : (idsOf msgs).Nodup) :
    (histFirstRun msgs k).copied + (histFirstRun msgs k).failed = k
    ∧ (histRerun msgs k).attempted = contentIds (List.drop k msgs)
    ∧ ∀ i ∈ (histRerun msgs k).attempted, i ∉ (histFirstRun msgs k).attempted := by
  have hsplit : List.take k msgs ++ List.drop k msgs = msgs := List.take_append_drop k msgs
  have h2 := allSettle_append (List.take k msgs) (List.drop k msgs)
  rw [hsplit, hset] at h2
  have hall := (Bool.and_eq_true _ _).mp h2.symm
  have hrun1 := histRun_settles (List.take k msgs) hall.1 {}
  have hcnt : (histFirstRun msgs k).copied + (histFirstRun msgs k).failed = k := by
    have := hrun1.1
    rw [serviceFree_contentIds _ hsf] at this
    simpa [histFirstRun, idsOf, List.length_take, Nat.min_eq_left hk] using this
  refine ⟨hcnt, ?_, ?_⟩
  · unfold histRerun
    rw [hcnt, histRun_skip]
    simpa using (histRun_settles (List.drop k msgs) hall.2 _).2.1
  · unfold histRerun
    rw [hcnt, histRun_skip]
    intro i hi hi1
    have hiattr : i ∈ contentIds (List.drop k msgs) := by
      have := (histRun_settles (List.drop k msgs) hall.2
        ({ copied := (histFirstRun msgs k).copied,
           failed := (histFirstRun msgs k).failed } : HistAcc)).2.1
      rw [this] at hi
      simpa using hi
    have hi1attr : i ∈ contentIds (List.take k msgs) := by
      have := hrun1.2.1
      unfold histFirstRun at hi1
      rw [this] at hi1
      simpa using hi1
    have hidrop : i ∈ idsOf (List.drop k msgs) := contentIds_subset_idsOf _ i hiattr
    have hitake : i ∈ idsOf (List.take k msgs) := contentIds_subset_idsOf _ i hi1attr
    have hnd2 : (idsOf (List.take k msgs) ++ idsOf (List.drop k msgs)).Nodup := by
      have : idsOf msgs = idsOf (List.take k msgs) ++ idsOf (List.drop k msgs) := by
        unfold idsOf
        rw [← List.map_append, hsplit]
      rwa [this] at hnd
    exact (List.nodup_append.mp hnd2).2.2 hitake hidrop

/-- Concrete instantiation of the amended resume-idempotence theorem on
a three-message service-free history interrupted after two messages. -/
theorem claim_C1_amended_witness :
    (allSettle [HMsg.content 1 [.success], .content 2 [.success], .content 3 [.success]] = true
      ∧ serviceFree (List.take 2 [HMsg.content 1 [.success], .content 2 [.success], .content 3 [.success]]) = true
      ∧ 2 ≤ ([HMsg.content 1 [.success], .content 2 [.success], .content 3 [.success]] : List HMsg).length
      ∧ (idsOf [HMsg.content 1 [.success], .content 2 [.success], .content 3 [.success]]).Nodup)
    ∧ ((histFirstRun [HMsg.content 1 [.success], .content 2 [.success], .content 3 [.success]] 2).copied
          + (histFirstRun [HMsg.content 1 [.success], .content 2 [.success], .content 3 [.success]] 2).failed = 2
      ∧ (histRerun [HMsg.content 1 [.success], .content 2 [.success], .content 3 [.success]] 2).attempted
          = contentIds (List.drop 2 [HMsg.content 1 [.success], .content 2 [.success], .content 3 [.success]])
      ∧ ∀ i ∈ (histRerun [HMsg.content 1 [.success], .content 2 [.success], .content 3 [.success]] 2).attempted,
          i ∉ (histFirstRun [HMsg.content 1 [.success], .content 2 [.success], .content 3 [.success]] 2).attempted) :=
  ⟨⟨by decide, by decide, by decide, by decide⟩,
    claim_C1_amended _ 2 (by decide) (by decide) (by decide) (by decide)⟩

/-! ## Claim C4 — rate-limit handling in the shared send path -/

/-- Claim C4, counterexample: the claim says the sender sleeps exactly
`n` seconds on a cooldown of `n`; `_copy_message_with_retry` executes
`asyncio.sleep(wait_time + 1)`, so a cooldown of 5 seconds produces a
sleep of 6 seconds, not 5. -/
theorem claim_C4_counterexample :
    (copyWithRetry [.flood 5, .success] 0 ⟨none, [], 0⟩).2.sleeps ≠ [5]
    ∧ (copyWithRetry [.flood 5, .success] 0 ⟨none, [], 0⟩).2.sleeps = [6] := by
  decide

/-- Claim C4 (amended): on a rate-limited send with cooldown `n`, the
job's `statusMessage` is set to reflect the wait, the sender sleeps
`n + 1` seconds (not exactly `n`) and retries; such retries are uncapped
in number, never spend the transient-retry budget, and on eventual
success the verdict is `ok` (so nothing is counted toward `failedCount`)
with `statusMessage` cleared. -/
theorem claim_C4_amended :
    (∀ (n : Nat) (rest : List SendOutcome) (rc : Nat) (st : RetrySt), rc < maxRetries →
        copyWithRetry (.flood n :: rest) rc st
          = copyWithRetry rest rc ⟨some n, st.sleeps ++ [n + 1], st.attempts + 1⟩)
    ∧ (∀ (n k : Nat) (st : RetrySt),
        copyWithRetry (List.replicate k (.flood n) ++ [.success]) 0 st
          = (.ok, ⟨none, st.sleeps ++ List.replicate k (n + 1), st.attempts + k + 1⟩))
    ∧ (∀ (n k id : Nat) (rest : List HMsg) (acc : HistAcc),
        histRun 0 (.content id (List.replicate k (.flood n) ++ [.success]) :: rest) acc
          = histRun 0 rest
              { acc with copied := acc.copied + 1,
                         attempted := acc.attempted ++ [id],
                         sleeps := acc.sleeps ++ List.replicate k (n + 1),
                         statusMsg := none }) := by
  refine ⟨copyWithRetry_flood_step, ?_, ?_⟩
  · intro n k st
    exact copyWithRetry_flood_replicate n k 0 st (by decide)
  · intro n k id rest acc
    rw [histRun_content_step,
      copyWithRetry_flood_replicate n k 0 ⟨acc.statusMsg, acc.sleeps, 0⟩ (by decide)]

/-- Concrete instantiation of the amended rate-limit theorem: a
5-second cooldown sets the wait message, sleeps 6 seconds and retries
with the retry budget untouched. -/
theorem claim_C4_amended_witness :
    copyWithRetry [.flood 5, .success] 0 ⟨none, [], 0⟩
      = copyWithRetry [.success] 0 ⟨some 5, [6], 1⟩ :=
  claim_C4_amended.1 5 [.success] 0 ⟨none, [], 0⟩ (by decide)

/-! ## Claim C8 — transient versus fatal send errors in the historical loop -/

/-- Claim C8 (confirmed): a transient send error is retried with
linearly increasing delays (1 s, 2 s, 3 s) up to `maxRetries = 3`
attempts; on exhaustion the verdict is `exhausted`, the loop increments
`failedCount` and moves to the next message.  A permission /
forwarding-restricted error is fatal on first sight: the loop aborts
the whole job with status `failed`, leaving the remaining messages
unprocessed and `failedCount` unchanged. -/
theorem claim_C8 :
    (∀ (m : Option Nat) (s : List Nat) (a : Nat),
        copyWithRetry (List.replicate maxRetries .transientErr) 0 ⟨m, s, a⟩
          = (.exhausted, ⟨m, s ++ [1, 2, 3], a + 3⟩))
    ∧ (∀ (id : Nat) (rest : List HMsg) (acc : HistAcc),
        histRun 0 (.content id (List.replicate maxRetries .transientErr) :: rest) acc
          = histRun 0 rest
              { acc with failed := acc.failed + 1,
                         attempted := acc.attempted ++ [id],
                         sleeps := acc.sleeps ++ [1, 2, 3] })
    ∧ (∀ (id : Nat) (tail : List SendOutcome) (rest : List HMsg) (acc : HistAcc),
        histRun 0 (.content id (.fatalPerm :: tail) :: rest) acc
          = ⟨acc.copied, acc.failed, acc.attempted ++ [id], acc.sleeps,
             acc.statusMsg, .failed, false⟩) := by
  refine ⟨copyWithRetry_transient_exhausts, ?_, ?_⟩
  · intro id rest acc
    rw [histRun_content_step, copyWithRetry_transient_exhausts]
  · intro id tail rest acc
    rw [histRun_content_step, copyWithRetry_fatal_step tail 0 _ (by decide)]

/-! ## Claim C5 — entity resolution strategy

Embeds `CopyService._get_entity_with_retry` (copy_service.py lines
64-107) and the entity-resolution phase of `copy_messages_historical`
(lines 301-335 with the failure handler at 422-426).  The protocol
client is abstracted by two lookup oracles: `before` is
`client.get_entity` against the current local cache, `after` is the
same lookup after `client.get_dialogs(limit=None)` refreshed the cache
(the fallback lookup for the converted id also runs after the
refresh). -/

inductive ERef
  | num (i : Int)
  | uname (s : String)
deriving DecidableEq, Repr

abbrev Entity := Nat

/-- The guard `isinstance(entity_id, int) and entity_id < 0 and
entity_id > -1000000000000`: a basic-group-style numeric id. -/
def basicGroupStyle (i : Int) : Bool :=
  decide (i < 0) && decide (-1000000000000 < i)

/-- `converted_id = -1000000000000 - abs(entity_id)`. -/
def toSupergroupId (i : Int) : Int := -1000000000000 - |i|

/-- `_get_entity_with_retry`: try `get_entity` as given; on any failure
refresh the dialog cache and retry once; if that fails and the id is
basic-group-style, try the supergroup-style conversion; otherwise raise
`CopyServiceError` naming the reference.  (The diagnostic logging block
has no effect on the result.) -/
def getEntityWithRetry (before after : ERef → Option Entity) (r : ERef) :
    Except ERef Entity :=
  match before r with
  | some e => .ok e
  | none =>
      match after r with
      | some e => .ok e
      | none =>
          match r with
          | .num i =>
              if basicGroupStyle i then
                match after (.num (toSupergroupId i)) with
                | some e => .ok e
                | none => .error (.num i)
              else .error (.num i)
          | .uname s => .error (.uname s)

/-- The spec's wording of the same strategy, as one deterministic list
of candidate lookups tried in order: as given → refresh directory and
retry → alternate numeric encoding → fail. -/
def specCandidates (before after : ERef → Option Entity) (r : ERef) :
    List (Option Entity) :=
  [before r, after r] ++
    match r with
    | .num i => if basicGroupStyle i then [after (.num (toSupergroupId i))] else []
    | .uname _ => []

/-- Resolution as described by the spec: the first candidate lookup
that finds the entity wins; if none does, the reference is
unresolvable. -/
def resolveRefSpec (before after : ERef → Option Entity) (r : ERef) :
    Except ERef Entity :=
  match (specCandidates before after r).findSome? id with
  | some e => .ok e
  | none => .error r

/-- The entity-resolution phase of `copy_messages_historical`: source
first, then target; a `CopyServiceError` from either lookup propagates
to the outer handler which marks the job `failed` (with a message
naming the offending reference) — fatal and non-retryable.  On success
the job proceeds in status `running`. -/
def histResolvePhase (before after : ERef → Option Entity) (src tgt : ERef) :
    JStatus × Option ERef :=
  match getEntityWithRetry before after src with
  | .error _ => (.failed, some src)
  | .ok _ =>
      match getEntityWithRetry before after tgt with
      | .error _ => (.failed, some tgt)
      | .ok _ => (.running, none)

/-- Claim C5 (confirmed): entity resolution follows exactly the claimed
strategy — `_get_entity_with_retry` equals the spec's candidate-order
resolution for every oracle pair and reference; a cache hit is returned
without refreshing; and an unresolvable source or target reference
aborts the job as `failed` naming that reference. -/
theorem claim_C5 :
    (∀ (before after : ERef → Option Entity) (r : ERef),
        getEntityWithRetry before after r = resolveRefSpec before after r)
    ∧ (∀ (before after : ERef → Option Entity) (r : ERef) (e : Entity),
        before r = some e → getEntityWithRetry before after r = .ok e)
    ∧ (∀ (before after : ERef → Option Entity) (src tgt : ERef),
        getEntityWithRetry before after src = .error src →
        histResolvePhase before after src tgt = (.failed, some src))
    ∧ (∀ (before after : ERef → Option Entity) (src tgt : ERef) (e : Entity),
        getEntityWithRetry before after src = .ok e →
        getEntityWithRetry before after tgt = .error tgt →
        histResolvePhase before after src tgt = (.failed, some tgt)) := by
  refine ⟨?_, ?_, ?_, ?_⟩
  · intro before after r
    unfold getEntityWithRetry resolveRefSpec specCandidates
    cases hb : before r with
    | some e => simp [hb]
    | none =>
        cases ha : after r with
        | some e => simp [hb, ha]
        | none =>
            cases r with
            | num i =>
                by_cases hg : basicGroupStyle i
                · cases hc : after (.num (toSupergroupId i)) <;>
                    simp [hb, ha, hg, hc]
                · simp [hb, ha, hg]
            | uname s => simp [hb, ha]
  · intro before after r e hb
    unfold getEntityWithRetry
    rw [hb]
  · intro before after src tgt hsrc
    unfold histResolvePhase
    rw [hsrc]
  · intro before after src tgt e hsrc htgt
    unfold histResolvePhase
    rw [hsrc, htgt]

/-- Concrete instantiation of the resolution theorem: with an empty
cache before and after refresh, a username reference is unresolvable
and the job is aborted as `failed` naming the source reference. -/
theorem claim_C5_witness :
    histResolvePhase (fun _ => none) (fun _ => none) (.uname "src") (.uname "tgt")
      = (.failed, some (.uname "src")) :=
  claim_C5.2.2.1 (fun _ => none) (fun _ => none) (.uname "src") (.uname "tgt") rfl

/-! ## Orchestrator state machine

Shared model for the real-time job lifecycle
(`start_real_time_copy` / `pause_real_time_copy` / `resume_real_time_copy`
/ `stop_real_time_copy` / `resume_all_active_jobs` in copy_service.py,
`add_real_time_handler` / `remove_real_time_handler` in
telegram_service.py, `update_status` in job_repository.py).

State components:
  * `jobs`           — the persisted `copy_jobs` rows;
  * `clientHandlers` — event handlers currently registered on telethon
    clients via `client.add_event_handler`, tagged `(jobId, generation)`
    so that distinct handler closures for the same job are
    distinguishable (each `start_real_time_copy` creates a fresh
    closure);
  * `registry`       — the `_real_time_handlers` dict, `jobId ↦`
    generation of the stored handler (a dict holds one value per key);
  * `nextGen`        — generation supply for fresh handler closures.
Repository lookups model `scalar_one_or_none` on the unique `job_id`
column as first-match lookup. -/

structure JobRow where
  jobId : String
  mode : String           -- "historical" or "real_time"
  status : JStatus
  hasUserPhone : Bool     -- job.user is attached and has a phone_number
deriving DecidableEq, Repr

structure SysState where
  jobs : List JobRow
  clientHandlers : List (String × Nat)
  registry : List (String × Nat)
  nextGen : Nat
deriving DecidableEq, Repr

def lookupStatus (l : List JobRow) (j : String) : Option JStatus :=
  match l with
  | [] => none
  | r :: rest => if r.jobId = j then some r.status else lookupStatus rest j

/-- `job_repo.get_by_id(job_id).status`. -/
def statusOf (s : SysState) (j : String) : Option JStatus :=
  lookupStatus s.jobs j

def setStatusRows (l : List JobRow) (j : String) (st : JStatus) : List JobRow :=
  l.map (fun r => if r.jobId = j then { r with status := st } else r)

/-- `job_repo.update_status(job, status)`: assigns the new status
unconditionally — there is no terminal-state guard in the repository. -/
def setStatus (s : SysState) (j : String) (st : JStatus) : SysState :=
  { s with jobs := setStatusRows s.jobs j st }

def regLookupL (l : List (String × Nat)) (j : String) : Option Nat :=
  match l with
  | [] => none
  | p :: rest => if p.1 = j then some p.2 else regLookupL rest j

/-- `_real_time_handlers.get(job_id)`. -/
def regLookup (s : SysState) (j : String) : Option Nat :=
  regLookupL s.registry j

/-- Number of handlers registered on clients for this job id. -/
def handlerCount (s : SysState) (j : String) : Nat :=
  s.clientHandlers.countP (fun p => decide (p.1 = j))

/-- `job_repo.create(...)`: inserts a `pending` row. -/
def createJobRow (s : SysState) (j : String) (mode : String) : SysState :=
  { s with jobs := s.jobs ++ [⟨j, mode, .pending, true⟩] }

/-- `telegram_service.remove_real_time_handler(job_id)` (client found):
if the registry holds a handler for the job, that one handler object is
removed from the client and the registry entry is deleted; otherwise
nothing happens.  Handlers of other generations registered for the same
job are untouched — the dict remembered only the last one. -/
def removeRealTimeHandler (s : SysState) (j : String) : SysState :=
  match regLookup s j with
  | none => s
  | some g =>
      { s with
        clientHandlers := s.clientHandlers.filter (fun p => !decide (p = (j, g))),
        registry := s.registry.filter (fun p => !decide (p.1 = j)) }

/-- Success path of `copy_service.start_real_time_copy` on an existing
row: `client.add_event_handler` registers a fresh handler closure (NO
pre-existing handler is removed anywhere in this function),
`add_real_time_handler` overwrites the registry entry for the job id,
and `update_status(job, "running")` marks the row running. -/
def startRealTimeStep (s : SysState) (j : String) : SysState :=
  let s1 : SysState :=
    { s with clientHandlers := s.clientHandlers ++ [(j, s.nextGen)],
             nextGen := s.nextGen + 1 }
  let s2 : SysState :=
    { s1 with registry := (j, s.nextGen) :: s1.registry.filter (fun p => !decide (p.1 = j)) }
  setStatus s2 j .running

/-- `pause_real_time_copy`: only `running` jobs may be paused. -/
def pauseStep (s : SysState) (j : String) : Except String SysState :=
  match statusOf s j with
  | none => .error "job not found"
  | some st =>
      if st = .running then .ok (setStatus (removeRealTimeHandler s j) j .paused)
      else .error "only running jobs can be paused"

/-- `stop_real_time_copy`: terminal jobs are rejected with an error;
otherwise the handler is removed and the row set to `stopped`. -/
def stopStep (s : SysState) (j : String) : Except String SysState :=
  match statusOf s j with
  | none => .error "job not found"
  | some st =>
      if st.isTerminal then .error "job already finalized"
      else .ok (setStatus (removeRealTimeHandler s j) j .stopped)

/-- `resume_real_time_copy`: only `paused` jobs may be resumed; resume
re-invokes `start_real_time_copy` with the same job id. -/
def resumeStep (s : SysState) (j : String) : Except String SysState :=
  match statusOf s j with
  | none => .error "job not found"
  | some st =>
      if st = .paused then .ok (startRealTimeStep s j)
      else .error "only paused jobs can be resumed"

/-- The `except Exception` handler of `copy_messages_historical` (lines
422-426): an in-flight historical run that hits a fatal error calls
`update_status(job, "failed")` with no status guard. -/
def histFailStep (s : SysState) (j : String) : SysState :=
  setStatus s j .failed

/-- `resume_all_active_jobs`: query all rows with `mode = "real_time"`
and `status = "running"`, skip rows with no attached user/phone, and
call `start_real_time_copy` with the existing job id for each. -/
def activeRealTimeRows (s : SysState) : List JobRow :=
  s.jobs.filter (fun r => decide (r.mode = "real_time") && decide (r.status = .running))

def resumeFold (l : List JobRow) (s : SysState) : SysState :=
  l.foldl (fun st r => if r.hasUserPhone then startRealTimeStep st r.jobId else st) s

def resumeAllActiveJobs (s : SysState) : SysState :=
  resumeFold (activeRealTimeRows s) s

/-! ### Primitive lemmas about the state-machine operations -/

theorem lookupStatus_setRows_ne (l : List JobRow) (j i : String) (st : JStatus)
    (h : i ≠ j) : lookupStatus (setStatusRows l j st) i = lookupStatus l i := by
  induction l with
  | nil => rfl
  | cons r rest ih =>
      show lookupStatus
        ((if r.jobId = j then { r with status := st } else r) :: setStatusRows rest j st) i = _
      by_cases hrj : r.jobId = j
      · rw [if_pos hrj]
        show (if r.jobId = i then some st else lookupStatus (setStatusRows rest j st) i) = _
        have hri : ¬ r.jobId = i := fun hh => h (by rw [← hh, hrj])
        rw [if_neg hri, ih]
        show _ = (if r.jobId = i then some r.status else lookupStatus rest i)
        rw [if_neg hri]
      · rw [if_neg hrj]
        show (if r.jobId = i then some r.status else lookupStatus (setStatusRows rest j st) i)
          = (if r.jobId = i then some r.status else lookupStatus rest i)
        rw [ih]

theorem lookupStatus_setRows_self (l : List JobRow) (j : String) (st : JStatus) :
    (lookupStatus l j).isSome → lookupStatus (setStatusRows l j st) j = some st := by
  induction l with
  | nil => intro h; simp [lookupStatus] at h
  | cons r rest ih =>
      intro h
      show lookupStatus
        ((if r.jobId = j then { r with status := st } else r) :: setStatusRows rest j st) j = _
      by_cases hrj : r.jobId = j
      · rw [if_pos hrj]
        show (if r.jobId = j then some st else lookupStatus (setStatusRows rest j st) j) = _
        rw [if_pos hrj]
      · rw [if_neg hrj]
        show (if r.jobId = j then some r.status else lookupStatus (setStatusRows rest j st) j) = _
        rw [if_neg hrj]
        apply ih
        have hdef : lookupStatus (r :: rest) j
            = if r.jobId = j then some r.status else lookupStatus rest j := rfl
        rw [hdef, if_neg hrj] at h
        exact h

theorem lookupStatus_append_some (l : List JobRow) (row : JobRow) (j : String)
    (st : JStatus) (h : lookupStatus l j = some st) :
    lookupStatus (l ++ [row]) j = some st := by
  induction l with
  | nil => simp [lookupStatus] at h
  | cons r rest ih =>
      have hdef : ∀ tl : List JobRow, lookupStatus (r :: tl) j
          = if r.jobId = j then some r.status else lookupStatus tl j := fun _ => rfl
      show lookupStatus (r :: (rest ++ [row])) j = some st
      rw [hdef] at h ⊢
      by_cases hrj : r.jobId = j
      · rw [if_pos hrj] at h ⊢
        exact h
      · rw [if_neg hrj] at h ⊢
        exact ih h

theorem lookupStatus_append_none (l : List JobRow) (row : JobRow) (j : String)
    (h : lookupStatus l j = none) :
    lookupStatus (l ++ [row]) j = if row.jobId = j then some row.status else none := by
  induction l with
  | nil => simp [lookupStatus]
  | cons r rest ih =>
      have hdef : ∀ tl : List JobRow, lookupStatus (r :: tl) j
          = if r.jobId = j then some r.status else lookupStatus tl j := fun _ => rfl
      show lookupStatus (r :: (rest ++ [row])) j = _
      rw [hdef] at h ⊢
      by_cases hrj : r.jobId = j
      · rw [if_pos hrj] at h
        exact absurd h (by simp)
      · rw [if_neg hrj] at h ⊢
        exact ih h

theorem regLookupL_filterKey_self (l : List (String × Nat)) (j : String) :
    regLookupL (l.filter (fun p => !decide (p.1 = j))) j = none := by
  induction l with
  | nil => rfl
  | cons p rest ih =>
      by_cases hpj : p.1 = j
      · simp only [List.filter_cons, hpj]
        simpa using ih
      · simp only [List.filter_cons]
        have hb : (!decide (p.1 = j)) = true := by simp [hpj]
        rw [hb]
        simp only [if_pos rfl]
        show (if p.1 = j then some p.2 else regLookupL (rest.filter _) j) = none
        rw [if_neg hpj]
        exact ih

theorem regLookupL_filterKey_ne (l : List (String × Nat)) (j i : String)
    (h : i ≠ j) :
    regLookupL (l.filter (fun p => !decide (p.1 = j))) i = regLookupL l i := by
  induction l with
  | nil => rfl
  | cons p rest ih =>
      by_cases hpj : p.1 = j
      · have hpi : ¬ p.1 = i := fun hh => h (by rw [← hh, hpj])
        simp only [List.filter_cons, hpj]
        rw [show regLookupL (p :: rest) i
            = if p.1 = i then some p.2 else regLookupL rest i from rfl, if_neg hpi]
        simpa using ih
      · simp only [List.filter_cons]
        have hb : (!decide (p.1 = j)) = true := by simp [hpj]
        rw [hb]
        simp only [if_pos rfl]
        show (if p.1 = i then some p.2 else regLookupL (rest.filter _) i)
          = if p.1 = i then some p.2 else regLookupL rest i
        by_cases hpi : p.1 = i
        · rw [if_pos hpi, if_pos hpi]
        · rw [if_neg hpi, if_neg hpi, ih]

theorem countP_filterPair_ne (l : List (String × Nat)) (j i : String) (g : Nat)
    (h : i ≠ j) :
    ((l.filter (fun p => !decide (p = (j, g)))).countP (fun p => decide (p.1 = i)))
      = l.countP (fun p => decide (p.1 = i)) := by
  induction l with
  | nil => rfl
  | cons p rest ih =>
      by_cases hp : p = (j, g)
      · have hpi : ¬ p.1 = i := by rw [hp]; exact fun hh => h (by rw [← hh])
        simp only [List.filter_cons, hp]
        rw [List.countP_cons]
        simp only [show ¬ ((j, g) : String × Nat).1 = i from hp ▸ hpi]
        simpa using ih
      · have hb : (!decide (p = (j, g))) = true := by simp [hp]
        have hkeep : (p :: rest).filter (fun q => !decide (q = (j, g)))
            = p :: rest.filter (fun q => !decide (q = (j, g))) := by
          rw [List.filter_cons, hb]
          simp
        rw [hkeep, List.countP_cons, List.countP_cons, ih]

theorem handlerCount_setStatus (s : SysState) (j : String) (st : JStatus)
    (i : String) : handlerCount (setStatus s j st) i = handlerCount s i := rfl

theorem statusOf_remove (s : SysState) (j i : String) :
    statusOf (removeRealTimeHandler s j) i = statusOf s i := by
  unfold removeRealTimeHandler
  cases regLookup s j <;> rfl

theorem regLookup_setStatus (s : SysState) (j : String) (st : JStatus)
    (i : String) : regLookup (setStatus s j st) i = regLookup s i := rfl

theorem handlerCount_remove_ne (s : SysState) (j i : String) (h : i ≠ j) :
    handlerCount (removeRealTimeHandler s j) i = handlerCount s i := by
  unfold removeRealTimeHandler
  cases regLookup s j with
  | none => rfl
  | some g => exact countP_filterPair_ne s.clientHandlers j i g h

theorem handlerCount_remove_self (s : SysState) (j : String)
    (h3 : ∀ g : Nat, (j, g) ∈ s.clientHandlers → regLookup s j = some g) :
    handlerCount (removeRealTimeHandler s j) j = 0 := by
  unfold removeRealTimeHandler
  cases hr : regLookup s j with
  | none =>
      simp only []
      unfold handlerCount
      rw [List.countP_eq_zero]
      rintro ⟨a, b⟩ hp hpj
      have ha : a = j := of_decide_eq_true hpj
      subst ha
      have := h3 b hp
      rw [hr] at this
      exact Option.noConfusion this
  | some g =>
      simp only []
      unfold handlerCount
      rw [List.countP_eq_zero]
      rintro ⟨a, b⟩ hp hpj
      have ha : a = j := of_decide_eq_true hpj
      subst ha
      have hmem := List.mem_filter.mp hp
      have hple := h3 b hmem.1
      rw [hr] at hple
      injection hple with hgb
      subst hgb
      simp at hmem

theorem handlerCount_start (s : SysState) (j i : String) :
    handlerCount (startRealTimeStep s j) i
      = handlerCount s i + (if i = j then 1 else 0) := by
  unfold startRealTimeStep setStatus handlerCount
  simp only [List.countP_append]
  by_cases hij : i = j
  · subst hij; simp [List.countP_cons]
  · have hji : ¬ (j = i) := fun hh => hij hh.symm
    simp [List.countP_cons, hji, hij]

theorem handlers_start (s : SysState) (j : String) :
    (startRealTimeStep s j).clientHandlers = s.clientHandlers ++ [(j, s.nextGen)] := rfl

theorem regLookup_start_self (s : SysState) (j : String) :
    regLookup (startRealTimeStep s j) j = some s.nextGen := by
  unfold startRealTimeStep setStatus regLookup regLookupL
  simp

theorem regLookup_start_ne (s : SysState) (j i : String) (h : i ≠ j) :
    regLookup (startRealTimeStep s j) i = regLookup s i := by
  show regLookupL ((j, s.nextGen) :: s.registry.filter (fun p => !decide (p.1 = j))) i
    = regLookupL s.registry i
  have hdef : regLookupL ((j, s.nextGen) :: s.registry.filter (fun p => !decide (p.1 = j))) i
      = if ((j, s.nextGen) : String × Nat).1 = i then some s.nextGen
        else regLookupL (s.registry.filter (fun p => !decide (p.1 = j))) i := rfl
  rw [hdef, if_neg (fun hh => h hh.symm)]
  exact regLookupL_filterKey_ne s.registry j i h

theorem statusOf_start_ne (s : SysState) (j i : String) (h : i ≠ j) :
    statusOf (startRealTimeStep s j) i = statusOf s i := by
  unfold startRealTimeStep setStatus statusOf
  exact lookupStatus_setRows_ne s.jobs j i .running h

theorem statusOf_start_self (s : SysState) (j : String)
    (h : (statusOf s j).isSome) :
    statusOf (startRealTimeStep s j) j = some .running := by
  unfold startRealTimeStep setStatus statusOf
  exact lookupStatus_setRows_self s.jobs j .running h

/-! ### Subscription invariant over the guarded operation flows -/

/-- The registry/handler consistency invariant: every job has at most
one live client handler; a job whose row is not `running` has none; and
every live handler is the one recorded in the `_real_time_handlers`
registry. -/
def Inv (s : SysState) : Prop :=
  ∀ j : String,
    handlerCount s j ≤ 1
    ∧ (statusOf s j = some .running ∨ handlerCount s j = 0)
    ∧ ∀ g : Nat, (j, g) ∈ s.clientHandlers → regLookup s j = some g

theorem handlerCount_pos_of_mem (s : SysState) (j : String) (g : Nat)
    (h : (j, g) ∈ s.clientHandlers) : 0 < handlerCount s j := by
  unfold handlerCount
  rw [List.countP_pos]
  exact ⟨(j, g), h, by simp⟩

theorem inv_createJobRow (s : SysState) (j m : String) (h : Inv s) :
    Inv (createJobRow s j m) := by
  intro i
  obtain ⟨h1, h2, h3⟩ := h i
  refine ⟨h1, ?_, h3⟩
  rcases h2 with hrun | h0
  · exact Or.inl (lookupStatus_append_some s.jobs _ i _ hrun)
  · exact Or.inr h0

theorem inv_start (s : SysState) (j : String) (h : Inv s)
    (h0 : handlerCount s j = 0) (hsome : (statusOf s j).isSome) :
    Inv (startRealTimeStep s j) := by
  intro i
  by_cases hij : i = j
  · subst hij
    refine ⟨?_, ?_, ?_⟩
    · rw [handlerCount_start, h0]
      simp
    · exact Or.inl (statusOf_start_self s i hsome)
    · intro g hg
      rw [handlers_start] at hg
      rcases List.mem_append.mp hg with hmem | hmem
      · exact absurd (handlerCount_pos_of_mem s i g hmem) (by omega)
      · have : g = s.nextGen := by simpa using hmem
        subst this
        exact regLookup_start_self s i
  · obtain ⟨h1, h2, h3⟩ := h i
    refine ⟨?_, ?_, ?_⟩
    · rw [handlerCount_start, if_neg hij]
      omega
    · rw [handlerCount_start, if_neg hij, statusOf_start_ne s j i hij]
      simpa using h2
    · intro g hg
      rw [handlers_start] at hg
      rcases List.mem_append.mp hg with hmem | hmem
      · rw [regLookup_start_ne s j i hij]
        exact h3 g hmem
      · exact absurd (by simpa using hmem : (i, g) = (j, s.nextGen))
          (by intro hh; exact hij (congrArg Prod.fst hh))

theorem handlers_remove_subset (s : SysState) (j : String) (p : String × Nat)
    (h : p ∈ (removeRealTimeHandler s j).clientHandlers) :
    p ∈ s.clientHandlers := by
  unfold removeRealTimeHandler at h
  cases hr : regLookup s j with
  | none => rw [hr] at h; exact h
  | some g =>
      rw [hr] at h
      exact (List.mem_filter.mp h).1

theorem regLookup_remove_ne (s : SysState) (j i : String) (h : i ≠ j) :
    regLookup (removeRealTimeHandler s j) i = regLookup s i := by
  unfold removeRealTimeHandler
  cases hr : regLookup s j with
  | none => rfl
  | some g => exact regLookupL_filterKey_ne s.registry j i h

theorem inv_removeSet (s : SysState) (j : String) (x : JStatus) (h : Inv s) :
    Inv (setStatus (removeRealTimeHandler s j) j x) := by
  intro i
  have hhc : handlerCount (setStatus (removeRealTimeHandler s j) j x) i
      = handlerCount (removeRealTimeHandler s j) i := rfl
  by_cases hij : i = j
  · subst hij
    have h0 : handlerCount (removeRealTimeHandler s i) i = 0 :=
      handlerCount_remove_self s i (h i).2.2
    refine ⟨?_, ?_, ?_⟩
    · rw [hhc, h0]; omega
    · exact Or.inr (by rw [hhc, h0])
    · intro g hg
      have hg' : (i, g) ∈ (removeRealTimeHandler s i).clientHandlers := hg
      have := handlerCount_pos_of_mem (removeRealTimeHandler s i) i g hg'
      omega
  · obtain ⟨h1, h2, h3⟩ := h i
    have hhc2 : handlerCount (removeRealTimeHandler s j) i = handlerCount s i :=
      handlerCount_remove_ne s j i hij
    refine ⟨?_, ?_, ?_⟩
    · rw [hhc, hhc2]; exact h1
    · have hso : statusOf (setStatus (removeRealTimeHandler s j) j x) i
          = statusOf s i := by
        unfold setStatus statusOf
        rw [lookupStatus_setRows_ne _ j i x hij]
        exact statusOf_remove s j i
      rw [hso, hhc, hhc2]
      exact h2
    · intro g hg
      have hg' : (i, g) ∈ s.clientHandlers :=
        handlers_remove_subset s j (i, g) hg
      have hrl : regLookup (setStatus (removeRealTimeHandler s j) j x) i
          = regLookup s i := by
        rw [regLookup_setStatus]
        exact regLookup_remove_ne s j i hij
      rw [hrl]
      exact h3 g hg'

/-! ### Guard-extraction lemmas for the `Except`-returning operations -/

theorem pauseStep_ok (s : SysState) (j : String) (s' : SysState)
    (h : pauseStep s j = .ok s') :
    statusOf s j = some .running
    ∧ s' = setStatus (removeRealTimeHandler s j) j .paused := by
  unfold pauseStep at h
  cases hst : statusOf s j with
  | none =>
      rw [hst] at h
      have h' : (Except.error "job not found" : Except String SysState) = .ok s' := h
      exact absurd h' (by simp)
  | some st =>
      rw [hst] at h
      have h' : (if st = JStatus.running
            then Except.ok (setStatus (removeRealTimeHandler s j) j .paused)
            else Except.error "only running jobs can be paused") = .ok s' := h
      by_cases hr : st = .running
      · subst hr
        rw [if_pos rfl] at h'
        exact ⟨rfl, by injection h' with hh; exact hh.symm⟩
      · rw [if_neg hr] at h'
        exact absurd h' (by simp)

theorem stopStep_ok (s : SysState) (j : String) (s' : SysState)
    (h : stopStep s j = .ok s') :
    (∃ st, statusOf s j = some st ∧ st.isTerminal = false)
    ∧ s' = setStatus (removeRealTimeHandler s j) j .stopped := by
  unfold stopStep at h
  cases hst : statusOf s j with
  | none =>
      rw [hst] at h
      have h' : (Except.error "job not found" : Except String SysState) = .ok s' := h
      exact absurd h' (by simp)
  | some st =>
      rw [hst] at h
      have h' : (if st.isTerminal = true
            then (Except.error "job already finalized" : Except String SysState)
            else Except.ok (setStatus (removeRealTimeHandler s j) j .stopped)) = .ok s' := h
      by_cases ht : st.isTerminal = true
      · rw [if_pos ht] at h'
        exact absurd h' (by simp)
      · rw [if_neg ht] at h'
        exact ⟨⟨st, rfl, by simpa using ht⟩, by injection h' with hh; exact hh.symm⟩

theorem resumeStep_ok (s : SysState) (j : String) (s' : SysState)
    (h : resumeStep s j = .ok s') :
    statusOf s j = some .paused ∧ s' = startRealTimeStep s j := by
  unfold resumeStep at h
  cases hst : statusOf s j with
  | none =>
      rw [hst] at h
      have h' : (Except.error "job not found" : Except String SysState) = .ok s' := h
      exact absurd h' (by simp)
  | some st =>
      rw [hst] at h
      have h' : (if st = JStatus.paused
            then Except.ok (startRealTimeStep s j)
            else Except.error "only paused jobs can be resumed") = .ok s' := h
      by_cases hp : st = .paused
      · subst hp
        rw [if_pos rfl] at h'
        exact ⟨rfl, by injection h' with hh; exact hh.symm⟩
      · rw [if_neg hp] at h'
        exact absurd h' (by simp)

/-- The states reachable through the operation surface actually exposed
by the system: a fresh registry, first start of a new real-time job
(route `/copy` creates the row then starts it), pause, resume, and
stop.  (`resume_all_active_jobs` at process start is `startRealTimeStep`
per running job in a fresh-handler state, covered by the same steps.) -/
inductive Reach : SysState → Prop where
  | init : Reach ⟨[], [], [], 0⟩
  | startNew (s : SysState) (j : String) (hs : Reach s)
      (hnew : statusOf s j = none) :
      Reach (startRealTimeStep (createJobRow s j "real_time") j)
  | pause (s : SysState) (j : String) (s' : SysState) (hs : Reach s)
      (hok : pauseStep s j = .ok s') : Reach s'
  | stop (s : SysState) (j : String) (s' : SysState) (hs : Reach s)
      (hok : stopStep s j = .ok s') : Reach s'
  | resume (s : SysState) (j : String) (s' : SysState) (hs : Reach s)
      (hok : resumeStep s j = .ok s') : Reach s'

theorem inv_reach (s : SysState) (h : Reach s) : Inv s := by
  induction h with
  | init =>
      intro j
      refine ⟨Nat.zero_le 1, Or.inr rfl, ?_⟩
      intro g hg
      exact absurd hg (List.not_mem_nil _)
  | startNew s j hs hnew ih =>
      have hinv := inv_createJobRow s j "real_time" ih
      apply inv_start _ _ hinv
      · have h2 := (ih j).2.1
        rcases h2 with hrun | h0
        · rw [hnew] at hrun; exact absurd hrun (by simp)
        · exact h0
      · have : statusOf (createJobRow s j "real_time") j = some .pending := by
          unfold createJobRow statusOf
          rw [lookupStatus_append_none s.jobs _ j hnew]
          simp
        rw [this]
        rfl
  | pause s j s' hs hok ih =>
      obtain ⟨hst, hs'⟩ := pauseStep_ok s j s' hok
      rw [hs']
      exact inv_removeSet s j .paused ih
  | stop s j s' hs hok ih =>
      obtain ⟨hst, hs'⟩ := stopStep_ok s j s' hok
      rw [hs']
      exact inv_removeSet s j .stopped ih
  | resume s j s' hs hok ih =>
      obtain ⟨hst, hs'⟩ := resumeStep_ok s j s' hok
      rw [hs']
      apply inv_start s j ih
      · rcases (ih j).2.1 with hrun | h0
        · rw [hst] at hrun; exact absurd hrun (by simp)
        · exact h0
      · rw [hst]; rfl

/-! ### Lemmas for `resume_all_active_jobs` -/

theorem resumeFold_handlerCount (l : List JobRow) :
    ∀ (s : SysState), (∀ r ∈ l, r.hasUserPhone = true) →
      (l.map JobRow.jobId).Nodup → ∀ i : String,
      handlerCount (resumeFold l s) i
        = handlerCount s i + (if i ∈ l.map JobRow.jobId then 1 else 0) := by
  induction l with
  | nil => intro s _ _ i; simp [resumeFold]
  | cons r rest ih =>
      intro s hall hnd i
      have hstep : resumeFold (r :: rest) s
          = resumeFold rest (startRealTimeStep s r.jobId) := by
        unfold resumeFold
        rw [List.foldl_cons, if_pos (hall r (List.mem_cons_self r rest))]
      rw [hstep,
        ih (startRealTimeStep s r.jobId)
          (fun q hq => hall q (List.mem_cons_of_mem r hq))
          ((List.nodup_cons.mp (by simpa using hnd)).2) i,
        handlerCount_start]
      have hhead : r.jobId ∉ rest.map JobRow.jobId :=
        (List.nodup_cons.mp (by simpa using hnd)).1
      by_cases hij : i = r.jobId
      · subst hij
        rw [if_pos rfl, if_neg hhead, if_pos (by simp)]
      · rw [if_neg hij]
        by_cases hmem : i ∈ rest.map JobRow.jobId
        · rw [if_pos hmem, if_pos (by simp [hmem])]
        · rw [if_neg hmem, if_neg (by simp [hij, hmem])]

theorem resumeFold_length (l : List JobRow) :
    ∀ s : SysState, (∀ r ∈ l, r.hasUserPhone = true) →
      (resumeFold l s).clientHandlers.length
        = s.clientHandlers.length + l.length := by
  induction l with
  | nil => intro s _; simp [resumeFold]
  | cons r rest ih =>
      intro s hall
      have hstep : resumeFold (r :: rest) s
          = resumeFold rest (startRealTimeStep s r.jobId) := by
        unfold resumeFold
        rw [List.foldl_cons, if_pos (hall r (List.mem_cons_self r rest))]
      rw [hstep, ih (startRealTimeStep s r.jobId)
        (fun q hq => hall q (List.mem_cons_of_mem r hq)), handlers_start]
      simp
      omega

/-! ## Claim C2 — at most one live Subscription per job id -/

/-- Claim C2, counterexample: `start_real_time_copy` contains no code
removing a pre-existing handler.  Starting the same job id twice leaves
the first registered handler `("j", 0)` in place on the client and
registers a second one: two live handlers for one job id, and the
pre-existing Subscription was not removed before the new registration. -/
theorem claim_C2_counterexample :
    handlerCount (startRealTimeStep (createJobRow ⟨[], [], [], 0⟩ "j" "real_time") "j") "j" = 1
    ∧ ("j", 0) ∈ (startRealTimeStep
        (startRealTimeStep (createJobRow ⟨[], [], [], 0⟩ "j" "real_time") "j") "j").clientHandlers
    ∧ handlerCount (startRealTimeStep
        (startRealTimeStep (createJobRow ⟨[], [], [], 0⟩ "j" "real_time") "j") "j") "j" = 2 := by
  decide

/-- Claim C2 (amended): `start_real_time_copy` removes no pre-existing
handler — every handler registered before the call is still registered
after it; the `_real_time_handlers` registry, being a dict, holds
exactly one entry per job id after a start; and along the operation
flows the system actually exposes (new-job start, pause, resume, stop)
at most one live handler per job id exists at any instant, because
pause/stop remove the handler before any path that re-starts the same
job id can run. -/
theorem claim_C2_amended :
    (∀ (s : SysState) (j : String) (p : String × Nat),
        p ∈ s.clientHandlers → p ∈ (startRealTimeStep s j).clientHandlers)
    ∧ (∀ (s : SysState) (j : String),
        ((startRealTimeStep s j).registry.countP (fun p => decide (p.1 = j))) = 1)
    ∧ (∀ s : SysState, Reach s → ∀ j : String, handlerCount s j ≤ 1) := by
  refine ⟨?_, ?_, ?_⟩
  · intro s j p hp
    rw [handlers_start]
    exact List.mem_append.mpr (Or.inl hp)
  · intro s j
    show ((j, s.nextGen) :: s.registry.filter (fun p => !decide (p.1 = j))).countP
        (fun p => decide (p.1 = j)) = 1
    rw [List.countP_cons]
    simp only [decide_eq_true_eq]
    rw [if_pos trivial]
    have hz : (s.registry.filter (fun p => !decide (p.1 = j))).countP
        (fun p => decide (p.1 = j)) = 0 := by
      rw [List.countP_eq_zero]
      intro p hp hpj
      have := (List.mem_filter.mp hp).2
      rw [hpj] at this
      simp at this
    omega
  · intro s hr j
    exact (inv_reach s hr j).1

/-- Concrete instantiation of the amended theorem: after the first
start of a fresh job, exactly one handler is live for it. -/
theorem claim_C2_amended_witness :
    handlerCount (startRealTimeStep (createJobRow ⟨[], [], [], 0⟩ "j" "real_time") "j") "j" ≤ 1 :=
  claim_C2_amended.2.2 _
    (Reach.startNew ⟨[], [], [], 0⟩ "j" Reach.init rfl) "j"

/-! ## Claim C3 — terminal-state monotonicity -/

/-- Claim C3, counterexample: terminal states are not monotone.  A
running historical job is stopped (status `stopped`, terminal); the
in-flight historical loop then hits a fatal error and its
`except`-handler calls `update_status(job, "failed")` unconditionally,
overwriting the terminal `stopped` with `failed`.  (The `stop`-rejection
half of the claim does hold; this trace refutes the universal
"no operation ever changes a terminal status again".) -/
theorem claim_C3_counterexample :
    stopStep ⟨[⟨"j", "historical", .running, true⟩], [], [], 0⟩ "j"
      = .ok (setStatus (removeRealTimeHandler
          ⟨[⟨"j", "historical", .running, true⟩], [], [], 0⟩ "j") "j" .stopped)
    ∧ statusOf (setStatus (removeRealTimeHandler
          ⟨[⟨"j", "historical", .running, true⟩], [], [], 0⟩ "j") "j" .stopped) "j"
        = some .stopped
    ∧ JStatus.stopped.isTerminal = true
    ∧ statusOf (histFailStep (setStatus (removeRealTimeHandler
          ⟨[⟨"j", "historical", .running, true⟩], [], [], 0⟩ "j") "j" .stopped) "j") "j"
        = some .failed :=
  ⟨rfl, by decide, by decide, by decide⟩

/-- Claim C3 (amended): calling `stop` on a job whose status is
terminal is rejected with an error, and the guarded operations
(`pause`, `stop`, `resume`) never change the status of a job that is
already terminal; but `update_status` itself is unguarded, so the
failure handler of an in-flight historical loop can overwrite a
concurrently-set terminal `stopped` with `failed` (see the
counterexample). -/
theorem claim_C3_amended :
    (∀ (s : SysState) (j : String) (st : JStatus),
        statusOf s j = some st → st.isTerminal = true →
        stopStep s j = .error "job already finalized")
    ∧ (∀ (s : SysState) (j i : String) (s' : SysState) (st : JStatus),
        stopStep s j = .ok s' → statusOf s i = some st → st.isTerminal = true →
        statusOf s' i = some st)
    ∧ (∀ (s : SysState) (j i : String) (s' : SysState) (st : JStatus),
        pauseStep s j = .ok s' → statusOf s i = some st → st.isTerminal = true →
        statusOf s' i = some st)
    ∧ (∀ (s : SysState) (j i : String) (s' : SysState) (st : JStatus),
        resumeStep s j = .ok s' → statusOf s i = some st → st.isTerminal = true →
        statusOf s' i = some st) := by
  refine ⟨?_, ?_, ?_, ?_⟩
  · intro s j st hst hterm
    unfold stopStep
    rw [hst]
    show (if st.isTerminal = true
        then (Except.error "job already finalized" : Except String SysState)
        else Except.ok (setStatus (removeRealTimeHandler s j) j .stopped))
      = Except.error "job already finalized"
    rw [if_pos hterm]
  · intro s j i s' st hok hst hterm
    obtain ⟨⟨st0, hst0, hnt⟩, hs'⟩ := stopStep_ok s j s' hok
    have hij : i ≠ j := by
      intro hh
      subst hh
      rw [hst] at hst0
      injection hst0 with hh2
      rw [← hh2] at hnt
      rw [hterm] at hnt
      exact Bool.noConfusion hnt
    rw [hs']
    show lookupStatus (setStatusRows (removeRealTimeHandler s j).jobs j .stopped) i = some st
    rw [lookupStatus_setRows_ne _ j i .stopped hij]
    have : statusOf (removeRealTimeHandler s j) i = statusOf s i := statusOf_remove s j i
    rw [show lookupStatus (removeRealTimeHandler s j).jobs i
        = statusOf (removeRealTimeHandler s j) i from rfl, this]
    exact hst
  · intro s j i s' st hok hst hterm
    obtain ⟨hst0, hs'⟩ := pauseStep_ok s j s' hok
    have hij : i ≠ j := by
      intro hh
      subst hh
      rw [hst] at hst0
      injection hst0 with hh2
      rw [hh2] at hterm
      exact absurd hterm (by decide)
    rw [hs']
    show lookupStatus (setStatusRows (removeRealTimeHandler s j).jobs j .paused) i = some st
    rw [lookupStatus_setRows_ne _ j i .paused hij]
    rw [show lookupStatus (removeRealTimeHandler s j).jobs i
        = statusOf (removeRealTimeHandler s j) i from rfl, statusOf_remove s j i]
    exact hst
  · intro s j i s' st hok hst hterm
    obtain ⟨hst0, hs'⟩ := resumeStep_ok s j s' hok
    have hij : i ≠ j := by
      intro hh
      subst hh
      rw [hst] at hst0
      injection hst0 with hh2
      rw [hh2] at hterm
      exact absurd hterm (by decide)
    rw [hs']
    exact hst ▸ statusOf_start_ne s j i hij

/-- Concrete instantiation of the amended theorem: stopping an already
completed job is rejected with an error. -/
theorem claim_C3_amended_witness :
    stopStep ⟨[⟨"j", "historical", .completed, true⟩], [], [], 0⟩ "j"
      = .error "job already finalized" :=
  claim_C3_amended.1 ⟨[⟨"j", "historical", .completed, true⟩], [], [], 0⟩ "j"
    .completed (by decide) (by decide)

/-! ## Claim C9 — startup recovery re-registers one Subscription per running real-time job -/

/-- Claim C9 (confirmed, under the hypotheses that every recovered row
has an attached user with a phone number and that the job ids are
distinct, which the schema enforces): `resume_all_active_jobs` queries
exactly the rows with `mode = "real_time"` and `status = "running"`
and, in a fresh process (no live handlers), ends with exactly one live
handler per such job and none for any other id — `k` subscriptions for
`k` persisted running real-time jobs, no duplicates. -/
theorem claim_C9 (s : SysState)
    (hfresh : s.clientHandlers = [])
    (hphones : ∀ r ∈ activeRealTimeRows s, r.hasUserPhone = true)
    (hnd : ((activeRealTimeRows s).map JobRow.jobId).Nodup) :
    (∀ r : JobRow, r ∈ activeRealTimeRows s
        ↔ (r ∈ s.jobs ∧ r.mode = "real_time" ∧ r.status = .running))
    ∧ (∀ i : String, handlerCount (resumeAllActiveJobs s) i
        = if i ∈ (activeRealTimeRows s).map JobRow.jobId then 1 else 0)
    ∧ (resumeAllActiveJobs s).clientHandlers.length = (activeRealTimeRows s).length := by
  refine ⟨?_, ?_, ?_⟩
  · intro r
    unfold activeRealTimeRows
    rw [List.mem_filter]
    simp
  · intro i
    unfold resumeAllActiveJobs
    rw [resumeFold_handlerCount (activeRealTimeRows s) s hphones hnd i]
    have h0 : handlerCount s i = 0 := by
      unfold handlerCount
      rw [hfresh]
      rfl
    rw [h0]
    omega
  · unfold resumeAllActiveJobs
    rw [resumeFold_length (activeRealTimeRows s) s hphones, hfresh]
    simp

/-- Concrete instantiation at the spec's scenario D: a repository with
two running real-time jobs (plus a historical job and a paused
real-time job) recovers exactly two subscriptions, one per job. -/
theorem claim_C9_witness :
    ((⟨[⟨"a", "real_time", .running, true⟩, ⟨"b", "real_time", .running, true⟩,
        ⟨"c", "historical", .running, true⟩, ⟨"d", "real_time", .paused, true⟩],
       [], [], 0⟩ : SysState).clientHandlers = []
      ∧ (∀ r ∈ activeRealTimeRows ⟨[⟨"a", "real_time", .running, true⟩,
          ⟨"b", "real_time", .running, true⟩, ⟨"c", "historical", .running, true⟩,
          ⟨"d", "real_time", .paused, true⟩], [], [], 0⟩, r.hasUserPhone = true)
      ∧ ((activeRealTimeRows ⟨[⟨"a", "real_time", .running, true⟩,
          ⟨"b", "real_time", .running, true⟩, ⟨"c", "historical", .running, true⟩,
          ⟨"d", "real_time", .paused, true⟩], [], [], 0⟩).map JobRow.jobId).Nodup)
    ∧ ((∀ r : JobRow, r ∈ activeRealTimeRows ⟨[⟨"a", "real_time", .running, true⟩,
          ⟨"b", "real_time", .running, true⟩, ⟨"c", "historical", .running, true⟩,
          ⟨"d", "real_time", .paused, true⟩], [], [], 0⟩
          ↔ (r ∈ (⟨[⟨"a", "real_time", .running, true⟩, ⟨"b", "real_time", .running, true⟩,
              ⟨"c", "historical", .running, true⟩, ⟨"d", "real_time", .paused, true⟩],
             [], [], 0⟩ : SysState).jobs ∧ r.mode = "real_time" ∧ r.status = .running))
      ∧ (∀ i : String, handlerCount (resumeAllActiveJobs ⟨[⟨"a", "real_time", .running, true⟩,
          ⟨"b", "real_time", .running, true⟩, ⟨"c", "historical", .running, true⟩,
          ⟨"d", "real_time", .paused, true⟩], [], [], 0⟩) i
          = if i ∈ (activeRealTimeRows ⟨[⟨"a", "real_time", .running, true⟩,
              ⟨"b", "real_time", .running, true⟩, ⟨"c", "historical", .running, true⟩,
              ⟨"d", "real_time", .paused, true⟩], [], [], 0⟩).map JobRow.jobId then 1 else 0)
      ∧ (resumeAllActiveJobs ⟨[⟨"a", "real_time", .running, true⟩,
          ⟨"b", "real_time", .running, true⟩, ⟨"c", "historical", .running, true⟩,
          ⟨"d", "real_time", .paused, true⟩], [], [], 0⟩).clientHandlers.length
          = (activeRealTimeRows ⟨[⟨"a", "real_time", .running, true⟩,
              ⟨"b", "real_time", .running, true⟩, ⟨"c", "historical", .running, true⟩,
              ⟨"d", "real_time", .paused, true⟩], [], [], 0⟩).length) :=
  ⟨⟨rfl, by decide, by decide⟩,
    claim_C9 _ rfl (by decide) (by decide)⟩

/-! ## Claim C6 — the background session monitor

Embeds `TelegramService._check_active_sessions` (telegram_service.py
lines 869-948) and `_handle_revoked_session_by_name` (lines 950-991)
for one cached session.  The `get_me()` probe has three outcomes:
a user object (`authorized`), `None` (`softFail`), or an
`AuthKeyUnregisteredError` (`hardRevoked`).  The job-safety lookup is
abstracted as a `JobCheck` oracle covering the four branches of the
code: user found with active jobs, user found without, user not found,
and an exception during the check (`should_cleanup = False`). -/

inductive ProbeResult
  | authorized
  | softFail
  | hardRevoked
deriving DecidableEq, Repr

structure MonSession where
  connected : Bool
  probe : ProbeResult
  authTime : Option Nat   -- `_session_auth_times` entry (seconds)
  fileExists : Bool
deriving DecidableEq, Repr

inductive JobCheck
  | userWithActiveJobs
  | userNoActiveJobs
  | userNotFound
  | checkError
deriving DecidableEq, Repr

/-- `grace_period = timedelta(minutes=5)`. -/
def gracePeriodSecs : Nat := 5 * 60

/-- `auth_time` exists and `utcnow() - auth_time < grace_period`. -/
def withinGrace (now : Nat) (authTime : Option Nat) : Bool :=
  match authTime with
  | none => false
  | some t => decide (now - t < gracePeriodSecs)

/-- The `should_cleanup` computation on the soft-failure path: the
grace period is checked first; then the active-jobs lookup, which skips
cleanup when the user has active jobs or the check itself errors. -/
def shouldCleanupSoft (now : Nat) (sess : MonSession) (check : JobCheck) : Bool :=
  if withinGrace now sess.authTime then false
  else
    match check with
    | .userWithActiveJobs => false
    | .userNoActiveJobs => true
    | .userNotFound => true
    | .checkError => false

/-- Whether one pass of `_check_active_sessions` tears this session
down.  Note the `AuthKeyUnregisteredError` branch calls
`_handle_revoked_session_by_name` directly, without the grace-period or
job-safety checks. -/
def monitorTearsDown (now : Nat) (sess : MonSession) (check : JobCheck) : Bool :=
  if !sess.connected then false
  else
    match sess.probe with
    | .authorized => false
    | .softFail => shouldCleanupSoft now sess check
    | .hardRevoked => true

structure TeardownEffect where
  clientRemoved : Bool
  disconnected : Bool
  fileDeleted : Bool
  dbRowDeleted : Bool
deriving DecidableEq, Repr

/-- `_handle_revoked_session_by_name`: pops the client from the cache,
disconnects it, unlinks the session file if it exists — and performs NO
database deletion: the "Clean up database" block only parses the
session name and falls through without touching the Session row. -/
def handleRevokedByName (sess : MonSession) : TeardownEffect :=
  { clientRemoved := true, disconnected := true,
    fileDeleted := sess.fileExists, dbRowDeleted := false }

/-- Claim C6, counterexample: (1) a connected session with a soft probe
failure, no recent authentication and no active jobs is torn down, yet
`dbRowDeleted = false` — the teardown never deletes the Session row;
(2) a session whose probe raises the hard auth-revoked error is torn
down even though it authenticated 10 seconds ago, i.e. without the
grace-period check clearing. -/
theorem claim_C6_counterexample :
    monitorTearsDown 10000 ⟨true, .softFail, some 0, true⟩ .userNoActiveJobs = true
    ∧ (handleRevokedByName ⟨true, .softFail, some 0, true⟩).dbRowDeleted = false
    ∧ withinGrace 10000 (some 9990) = true
    ∧ monitorTearsDown 10000 ⟨true, .hardRevoked, some 9990, true⟩ .userWithActiveJobs = true := by
  decide

/-- Claim C6 (amended): for a connected session, the grace-period and
active-jobs checks gate teardown only on the soft probe-failure path —
a hard auth-revoked probe error tears down unconditionally; and the
teardown disconnects the connection and deletes the on-disk session
file, but leaves the persisted Session row in place. -/
theorem claim_C6_amended :
    (∀ (now : Nat) (sess : MonSession) (check : JobCheck),
        monitorTearsDown now sess check
          = (sess.connected
              && (decide (sess.probe = .hardRevoked)
                  || (decide (sess.probe = .softFail)
                      && !withinGrace now sess.authTime
                      && (decide (check = .userNoActiveJobs)
                          || decide (check = .userNotFound))))))
    ∧ (∀ sess : MonSession, (handleRevokedByName sess).disconnected = true)
    ∧ (∀ sess : MonSession, (handleRevokedByName sess).fileDeleted = sess.fileExists)
    ∧ (∀ sess : MonSession, (handleRevokedByName sess).dbRowDeleted = false) := by
  refine ⟨?_, fun _ => rfl, fun _ => rfl, fun _ => rfl⟩
  intro now sess check
  obtain ⟨c, pr, at0, fe⟩ := sess
  cases c <;> cases pr <;> cases check <;>
    simp [monitorTearsDown, shouldCleanupSoft]

/-! ## Claim C7 — idle expiry in `get_or_create_client`

Embeds `TelegramService._is_session_expired` (telegram_service.py lines
65-92) and the body of `get_or_create_client` (lines 215-317).  The
database Session row, the per-key cached client and the reconnect
outcome for a cached-but-disconnected client are explicit inputs; a
client is identified by how its telethon session was built:
`fromString blob` = `StringSession(blob)` loaded from the persisted
`session_string`, `freshSession` = a new empty `StringSession()` that
requires a full re-authentication. -/

structure DbSessionRow where
  lastUsedAt : Nat              -- seconds
  sessionString : Option String
deriving DecidableEq, Repr

inductive ClientKind
  | fromString (blob : String)
  | freshSession
deriving DecidableEq, Repr

structure TgClient where
  kind : ClientKind
  connected : Bool
deriving DecidableEq, Repr

/-- `SESSION_EXPIRATION_DAYS = 7`, in seconds. -/
def sessionExpirationSecs : Nat := 7 * 24 * 60 * 60

/-- `_is_session_expired`: `True` when no row exists, or when
`utcnow() > last_used_at + 7 days` (strict). -/
def isSessionExpired (now : Nat) (row : Option DbSessionRow) : Bool :=
  match row with
  | none => true
  | some r => decide (r.lastUsedAt + sessionExpirationSecs < now)

inductive ReconnectOutcome
  | success
  | authDup
  | failure
deriving DecidableEq, Repr

structure GetClientResult where
  client : Option TgClient        -- `none` models the re-raised AuthKeyDuplicatedError
  cacheAfter : Option TgClient
  discardedExpired : Bool         -- an expired cached client was popped
  disconnectedExpired : Bool      -- ... and disconnected (it was connected)
deriving DecidableEq, Repr

/-- `get_or_create_client` for one session key: look up the persisted
`session_string`; if the session is expired, pop and disconnect any
cached client; a cached, unexpired, connected client is returned as-is;
a cached disconnected one is reconnected (`authDup` evicts and
re-raises, other failures drop the broken client); otherwise a new
client is built — from the persisted `session_string` when one exists,
and only when none exists from a fresh empty `StringSession`. -/
def getOrCreateClient (now : Nat) (row : Option DbSessionRow)
    (cached : Option TgClient) (rec : ReconnectOutcome) : GetClientResult :=
  let dbString := row.bind (fun r => r.sessionString)
  let expired := isSessionExpired now row
  let discarded := expired && cached.isSome
  let disconnected := expired && (match cached with
    | some c => c.connected
    | none => false)
  let newClient : TgClient :=
    ⟨(match dbString with
      | some b => .fromString b
      | none => .freshSession), true⟩
  let cached1 : Option TgClient := if expired then none else cached
  match cached1 with
  | some c =>
      if c.connected then ⟨some c, some c, discarded, disconnected⟩
      else
        match rec with
        | .success =>
            ⟨some { c with connected := true }, some { c with connected := true },
             discarded, disconnected⟩
        | .authDup => ⟨none, none, discarded, disconnected⟩
        | .failure => ⟨some newClient, some newClient, discarded, disconnected⟩
  | none => ⟨some newClient, some newClient, discarded, disconnected⟩

/-- Claim C7, counterexample: an identity idle for more than 7 days
whose row still carries a `session_string`: the cached client is
discarded and disconnected, but the returned client is rebuilt from the
very same persisted `session_string` — no fresh authentication path is
forced; the old credentials are reused. -/
theorem claim_C7_counterexample :
    isSessionExpired (sessionExpirationSecs + 1) (some ⟨0, some "blob"⟩) = true
    ∧ (getOrCreateClient (sessionExpirationSecs + 1) (some ⟨0, some "blob"⟩)
        (some ⟨.fromString "blob", true⟩) .success).discardedExpired = true
    ∧ (getOrCreateClient (sessionExpirationSecs + 1) (some ⟨0, some "blob"⟩)
        (some ⟨.fromString "blob", true⟩) .success).disconnectedExpired = true
    ∧ (getOrCreateClient (sessionExpirationSecs + 1) (some ⟨0, some "blob"⟩)
        (some ⟨.fromString "blob", true⟩) .success).client
        = some ⟨.fromString "blob", true⟩
    ∧ (getOrCreateClient (sessionExpirationSecs + 1) (some ⟨0, some "blob"⟩)
        (some ⟨.fromString "blob", true⟩) .success).client
        ≠ some ⟨.freshSession, true⟩ := by
  decide

/-- Claim C7 (amended): when the persisted row is idle beyond 7 days,
`get_or_create_client` discards any cached client (disconnecting it if
it was connected) and builds a replacement; the replacement reuses the
persisted `session_string` when one exists, and only when no session
string is persisted does it start from a fresh empty session that
forces re-authentication. -/
theorem claim_C7_amended (now : Nat) (row : Option DbSessionRow)
    (cached : Option TgClient) (rec : ReconnectOutcome)
    (h : isSessionExpired now row = true) :
    (getOrCreateClient now row cached rec).discardedExpired = cached.isSome
    ∧ (getOrCreateClient now row cached rec).disconnectedExpired
        = (match cached with | some c => c.connected | none => false)
    ∧ (getOrCreateClient now row cached rec).client
        = some ⟨(match row.bind (fun r => r.sessionString) with
            | some b => .fromString b
            | none => .freshSession), true⟩ := by
  unfold getOrCreateClient
  rw [h]
  simp

/-- Concrete instantiation of the amended idle-expiry theorem. -/
theorem claim_C7_amended_witness :
    isSessionExpired (sessionExpirationSecs + 1) (some ⟨0, some "blob"⟩) = true
    ∧ ((getOrCreateClient (sessionExpirationSecs + 1) (some ⟨0, some "blob"⟩)
          (some ⟨.fromString "blob", true⟩) .success).discardedExpired
        = (some (⟨.fromString "blob", true⟩ : TgClient)).isSome
      ∧ (getOrCreateClient (sessionExpirationSecs + 1) (some ⟨0, some "blob"⟩)
          (some ⟨.fromString "blob", true⟩) .success).disconnectedExpired
        = (match (some (⟨.fromString "blob", true⟩ : TgClient)) with
            | some c => c.connected
            | none => false)
      ∧ (getOrCreateClient (sessionExpirationSecs + 1) (some ⟨0, some "blob"⟩)
          (some ⟨.fromString "blob", true⟩) .success).client
        = some ⟨(match (some (⟨0, some "blob"⟩ : DbSessionRow)).bind
              (fun r => r.sessionString) with
            | some b => .fromString b
            | none => .freshSession), true⟩) :=
  ⟨by decide,
    claim_C7_amended (sessionExpirationSecs + 1) (some ⟨0, some "blob"⟩)
      (some ⟨.fromString "blob", true⟩) .success (by decide)⟩

/-! ## Claim C10 — logout is not atomic across its two deletion targets

Embeds `TelegramService.logout` (telegram_service.py lines 713-820):
the session-file deletion loop (5 attempts, 0.5 s delay doubling each
retry, a `PermissionError` retries, any other error or success breaks),
followed unconditionally by the database Session-row deletion (whose
own errors are caught and ignored); the function returns
`file_deleted`.  Sleeps are recorded in tenths of a second. -/

inductive UnlinkOutcome
  | deleted
  | locked      -- PermissionError
  | otherError  -- any other exception
deriving DecidableEq, Repr

/-- The `for attempt in range(max_retries)` deletion loop.  `remaining`
is the number of attempts left (started at 5), `delay` the current
retry delay in tenths of a second (started at 5 = 0.5 s). -/
def fileDeleteLoop (unlink : Nat → UnlinkOutcome) :
    Nat → Nat → Nat → Bool × List Nat
  | _, 0, _ => (false, [])
  | attempt, rem + 1, delay =>
      match unlink attempt with
      | .deleted => (true, [])
      | .otherError => (false, [])
      | .locked =>
          if rem = 0 then (false, [])
          else
            let r := fileDeleteLoop unlink (attempt + 1) rem (delay * 2)
            (r.1, delay :: r.2)

structure LogoutEnv where
  fileExists : Bool
  unlink : Nat → UnlinkOutcome
  dbRowExists : Bool
  dbDeleteOk : Bool

structure LogoutResult where
  fileDeleted : Bool
  sleeps : List Nat
  dbRowDeleted : Bool
  ret : Bool
deriving DecidableEq, Repr

/-- `logout`: delete the session file (with the bounded retry loop; a
missing file counts as deleted), then delete the Session row from the
database regardless of the file outcome, and return `file_deleted`. -/
def logout (env : LogoutEnv) : LogoutResult :=
  let fd : Bool × List Nat :=
    if env.fileExists then fileDeleteLoop env.unlink 0 5 5 else (true, [])
  ⟨fd.1, fd.2, env.dbRowExists && env.dbDeleteOk, fd.1⟩

/-- Claim C10 (confirmed): logout deletes the Session row whenever it
exists and the delete succeeds, independently of whether the file could
be removed; the boolean return value equals the file-deletion outcome
and is unchanged by the database fields; and with a file locked through
all five attempts the row is still deleted while the function returns
`false` after backoff sleeps of 0.5, 1, 2 and 4 seconds. -/
theorem claim_C10 :
    (∀ env : LogoutEnv, (logout env).ret = (logout env).fileDeleted)
    ∧ (∀ env : LogoutEnv,
        (logout env).dbRowDeleted = (env.dbRowExists && env.dbDeleteOk))
    ∧ (∀ (env : LogoutEnv) (x y : Bool),
        (logout { env with dbRowExists := x, dbDeleteOk := y }).ret = (logout env).ret)
    ∧ logout ⟨true, fun _ => .locked, true, true⟩
        = ⟨false, [5, 10, 20, 40], true, false⟩ := by
  refine ⟨fun _ => rfl, fun _ => rfl, fun _ _ _ => rfl, ?_⟩
  decide

end TeleCopy
